import Mathlib

/-!
Verification of the process-orchestration core of barnhunt: the Runner
strategies (one-shot and interactive/shell-mode), the scoped log sink,
the scoped runner factory, the export facade, and PDF concatenation.

The runner and pdfutil implementation modules are not present in the
source tree (only their tests and CLI callers are), so the definitions
below are modelled from the specification, faithful to its words, and
checked against the behaviours the tests pin down.
-/

/-- Substring containment on strings, via list infixes. -/
def strContains (s sub : String) : Prop := sub.toList <:+: s.toList

instance (s sub : String) : Decidable (strContains s sub) :=
  List.decidableInfix sub.toList s.toList

/-- Log levels, with their numeric values as in the logging module. -/
inductive Level where
  | debug
  | info
  | warning
deriving DecidableEq, Repr

/-- Numeric level, as compared by the tests (levelno >= INFO). -/
def Level.levelno : Level → Nat
  | .debug => 10
  | .info => 20
  | .warning => 30

/-- A structured log record: a level, the bound tag, and decoded text. -/
structure LogRecord where
  level : Level
  tag : String
  text : String
deriving DecidableEq, Repr

/-- The rendered text of a record, as it appears in the captured log. -/
def LogRecord.rendered (r : LogRecord) : String :=
  r.tag ++ ": " ++ r.text

/-- Modelled from the spec: OutputLogSink (`logging_output` in
`barnhunt.inkscape.runner`, missing from the source tree).  A scoped
write-sink bound to a fixed tag; it buffers written chunks of bytes
(decoded to text here). -/
structure LogSink where
  tag : String
  chunks : List String
deriving DecidableEq, Repr

/-- Open a sink bound to a tag, with an empty buffer. -/
def logging_output (tag : String) : LogSink :=
  { tag := tag, chunks := [] }

/-- Write one chunk of bytes to the sink: it is buffered. -/
def LogSink.write (sink : LogSink) (chunk : String) : LogSink :=
  { sink with chunks := sink.chunks ++ [chunk] }

/-- Modelled from the spec: on scope exit the sink emits one structured
record per buffered chunk, at INFO, tagged with the bound name. -/
def LogSink.close (sink : LogSink) : List LogRecord :=
  sink.chunks.map fun c => { level := .info, tag := sink.tag, text := c }

/-- Faults a Runner call can raise. -/
inductive Fault where
  | processFailure (status : Int)
  | timeoutFault
deriving DecidableEq, Repr

/-- The observable behaviour of one spawned external process: its exit
status and its merged captured output. -/
structure ProcBehavior where
  status : Int
  output : String
deriving DecidableEq, Repr

/-- Result of one one-shot Runner call: the call result and the log
records the Runner emitted. -/
structure OneShotResult where
  result : Except Fault Unit
  logs : List LogRecord
deriving Repr

/-- Modelled from the spec: OneShotRunner (`RunInkscape`, missing from
the source tree).  Fully stateless; only the executable is configured. -/
structure RunInkscape where
  executable : String
deriving DecidableEq, Repr

/-- Modelled from the spec: one-shot `call(argv)`.  Spawns the tool,
waits for exit (behaviour given by `b`).  Exit 0: emit captured output
(if non-empty) at INFO via the log sink and return.  Exit nonzero:
raise ProcessFailure carrying the status and emit nothing. -/
def RunInkscape.call (r : RunInkscape) (argv : List String)
    (b : ProcBehavior) : OneShotResult :=
  let _ := argv
  if b.status = 0 then
    { result := .ok ()
      logs :=
        if b.output = "" then []
        else ((logging_output r.executable).write b.output).close }
  else
    { result := .error (.processFailure b.status), logs := [] }

/-- One-shot `close()`: a no-op, present only for the uniform contract. -/
def RunInkscape.close (r : RunInkscape) : RunInkscape := r

/-- Modelled from the spec: InteractiveRunner (`ShellModeInkscape`,
missing from the source tree).  Configuration: the executable, the
startup arguments for interactive/batch mode, and the per-call timeout. -/
structure ShellModeInkscape where
  executable : String
  inkscape_args : List String
  timeout : Nat
deriving DecidableEq, Repr

/-- The mutable state of an InteractiveRunner: the ThreadRegistry
(calling-thread identity ↦ pid of its ChildProcess), a fresh-pid
counter standing for the OS allocator, and the set of pids whose
processes have been terminated and reaped.  Registry mutation is
guarded by a lock in the implementation, so each operation below is
one atomic step. -/
structure ShellState where
  registry : List (Nat × Nat)
  nextPid : Nat
  dead : List Nat
deriving DecidableEq, Repr

/-- A fresh runner state: empty registry, pids start at 1. -/
def ShellState.init : ShellState :=
  { registry := [], nextPid := 1, dead := [] }

/-- Association lookup of a thread identity in the registry. -/
def lookupThread (t : Nat) : List (Nat × Nat) → Option Nat
  | [] => none
  | (t', p) :: rest => if t' = t then some p else lookupThread t rest

/-- Remove a thread's entry from the registry. -/
def removeThread (t : Nat) : List (Nat × Nat) → List (Nat × Nat)
  | [] => []
  | (t', p) :: rest =>
      if t' = t then removeThread t rest else (t', p) :: removeThread t rest

/-- The `pid` property: the pid of the calling thread's current
ChildProcess, or none if not yet spawned for that thread. -/
def ShellState.pidOf (s : ShellState) (t : Nat) : Option Nat :=
  lookupThread t s.registry

/-- The calling thread's ChildProcess if it is registered and still
alive (its process has not exited). -/
def ShellState.liveChild (s : ShellState) (t : Nat) : Option Nat :=
  match lookupThread t s.registry with
  | some p => if p ∈ s.dead then none else some p
  | none => none

/-- Modelled from the spec: step 2 of `call` — if the calling thread
has no ChildProcess, or its process has died, spawn a fresh one and
register it, replacing any stale entry.  Returns the pid in use. -/
def ShellState.ensureChild (s : ShellState) (t : Nat) : Nat × ShellState :=
  match s.liveChild t with
  | some p => (p, s)
  | none =>
      (s.nextPid,
        { registry := (t, s.nextPid) :: removeThread t s.registry
          nextPid := s.nextPid + 1
          dead := s.dead })

/-- The observable outcome of one interactive command exchange: either
the configured timeout elapsed first, or the tool signalled completion
having produced the given output. -/
inductive Outcome where
  | timeout
  | completed (output : String)
deriving DecidableEq, Repr

/-- Result of one interactive call: call result, emitted records, and
the successor runner state. -/
structure CallResult where
  result : Except Fault Unit
  logs : List LogRecord
  state : ShellState
deriving Repr

/-- Modelled from the spec: interactive `call(argv)`.  Ensure a live
ChildProcess for the calling thread; write the encoded command; read
until completion or timeout.  Timeout: terminate this ChildProcess,
remove its registry entry, raise TimeoutFault, no retry.  Normal
completion: emit non-empty output at INFO via the log sink, emit
nothing when output is empty. -/
def ShellModeInkscape.call (r : ShellModeInkscape) (t : Nat)
    (argv : List String) (oc : Outcome) (s : ShellState) : CallResult :=
  let _ := argv
  let p := (s.ensureChild t).1
  let s1 := (s.ensureChild t).2
  match oc with
  | .timeout =>
      { result := .error .timeoutFault
        logs := []
        state :=
          { registry := removeThread t s1.registry
            nextPid := s1.nextPid
            dead := p :: s1.dead } }
  | .completed out =>
      { result := .ok ()
        logs :=
          if out = "" then []
          else ((logging_output r.executable).write out).close
        state := s1 }

/-- Modelled from the spec: interactive `close()` — for every registry
entry, across all threads, terminate the ChildProcess, wait for it to
be reaped, then clear the registry. -/
def ShellState.close (s : ShellState) : ShellState :=
  { registry := []
    nextPid := s.nextPid
    dead := s.registry.map Prod.snd ++ s.dead }

/-- One successful trivial command (the test's `['true']`) issued from
each thread of the list in turn: what the thread-safety test does,
with registry mutation serialized by the lock. -/
def runTrue (r : ShellModeInkscape) (ts : List Nat) (s : ShellState) : ShellState :=
  ts.foldl (fun s t => (r.call t ["true"] (.completed "") s).state) s

/-- A filesystem path, as a list of components. -/
abbrev FsPath := List String

/-- Render a path as a string, components joined by slashes. -/
def renderPath (p : FsPath) : String :=
  String.intercalate "/" p

/-- A path's parent directory. -/
def parentDir (p : FsPath) : FsPath := p.dropLast

/-- All the directories `os.makedirs` would create for a target
directory: every non-empty prefix of it, and the directory itself. -/
def ancestors (d : FsPath) : List FsPath :=
  (List.range d.length).map fun i => d.take (i + 1)

/-- Create one directory if missing (`exist_ok` behaviour). -/
def ensureDir (d : FsPath) (fs : List FsPath) : List FsPath :=
  if d ∈ fs then fs else d :: fs

/-- Create a list of directories, each if missing. -/
def makedirsList (ds : List FsPath) (fs : List FsPath) : List FsPath :=
  ds.foldl (fun fs d => ensureDir d fs) fs

/-- Modelled from the spec: ensure `d` and all its ancestors exist
(idempotent create), as the facade does for the output's parent. -/
def makedirs (d : FsPath) (fs : List FsPath) : List FsPath :=
  makedirsList (ancestors d) fs

/-- State the export facade acts on: the directories that exist, and
the commands issued so far on the bound Runner. -/
structure FacadeState where
  fs : List FsPath
  commands : List (List String)
deriving DecidableEq, Repr

/-- Modelled from the spec: ExportFacade (`Inkscape.export_pdf`,
missing from the source tree).  Ensures the output's parent directory
exists, serializes the document, builds the render command
(page-area export flag + destination), and issues exactly one call on
the bound Runner, whose result (`res`, scripted) propagates unchanged. -/
def export_pdf (doc : String) (output_path : FsPath)
    (res : Except Fault Unit) (st : FacadeState) :
    Except Fault Unit × FacadeState :=
  let fs' := makedirs (parentDir output_path) st.fs
  let cmd := [doc, "--export-area-page", "--export-pdf=" ++ renderPath output_path]
  (res, { fs := fs', commands := st.commands ++ [cmd] })

/-- A Runner as the scope sees it: the commands issued on it and how
many times `close()` has run on it. -/
structure DummyInkscapeRunner where
  commands : List (List String)
  closeCount : Nat
deriving DecidableEq, Repr

/-- Record one `close()` on the runner. -/
def DummyInkscapeRunner.close (r : DummyInkscapeRunner) : DummyInkscapeRunner :=
  { r with closeCount := r.closeCount + 1 }

/-- The body of a scope: a sequence of calls, each with its scripted
result.  A failing call raises; the body stops there, as an exception
propagating out of the scope. -/
def runBody : List (List String × Except Fault Unit) → DummyInkscapeRunner →
    Except Fault Unit × DummyInkscapeRunner
  | [], r => (.ok (), r)
  | (cmd, res) :: rest, r =>
      let r' := { r with commands := r.commands ++ [cmd] }
      match res with
      | .ok _ => runBody rest r'
      | .error e => (.error e, r')

/-- Modelled from the spec: scoped acquisition through the
ScopedRunnerFactory (`inkscape_runner` used as a context manager,
missing from the source tree): run the body, then run `close()` on
the way out of the scope — on the normal path and on the exception
path alike. -/
def scopedRun (ops : List (List String × Except Fault Unit))
    (r : DummyInkscapeRunner) : Except Fault Unit × DummyInkscapeRunner :=
  ((runBody ops r).1, (runBody ops r).2.close)

/-- A PDF document: its page count and its title. -/
structure Pdf where
  pages : Nat
  title : String
deriving DecidableEq, Repr

/-- The error `concat_pdfs` raises on an empty input list. -/
inductive PdfError where
  | valueError
deriving DecidableEq, Repr

/-- Modelled from the spec: `concat_pdfs` (in `barnhunt.pdfutil`,
missing from the source tree; behaviour pinned by its tests): an empty
input list raises ValueError; otherwise the output holds every input
page in order and takes its metadata from the first input. -/
def concat_pdfs (inputs : List Pdf) : Except PdfError Pdf :=
  match inputs with
  | [] => .error .valueError
  | first :: _ =>
      .ok { pages := (inputs.map Pdf.pages).sum, title := first.title }

/-- `concat_pdfs` with the output file made explicit: on error nothing
is written; on success the concatenation is written at `output_fn`. -/
def concat_pdfs_fs (inputs : List Pdf) (output_fn : FsPath)
    (fs : List (FsPath × Pdf)) : Except PdfError Unit × List (FsPath × Pdf) :=
  match concat_pdfs inputs with
  | .error e => (.error e, fs)
  | .ok pdf => (.ok (), (output_fn, pdf) :: fs)

/-- Write a sequence of chunks to the sink, in order. -/
def LogSink.writeAll (sink : LogSink) (ws : List String) : LogSink :=
  ws.foldl LogSink.write sink

/- Helper lemmas. -/

theorem lookupThread_removeThread (t : Nat) (l : List (Nat × Nat)) :
    lookupThread t (removeThread t l) = none := by
  induction l with
  | nil => rfl
  | cons e rest ih =>
      obtain ⟨t', p⟩ := e
      by_cases h : t' = t
      · simpa [removeThread, h] using ih
      · simpa [removeThread, lookupThread, h] using ih

theorem removeThread_of_lookup_none (t : Nat) (l : List (Nat × Nat))
    (h : lookupThread t l = none) : removeThread t l = l := by
  induction l with
  | nil => rfl
  | cons e rest ih =>
      obtain ⟨t', p⟩ := e
      by_cases ht : t' = t
      · simp [lookupThread, ht] at h
      · simp [lookupThread, ht] at h
        simp [removeThread, ht, ih h]

theorem ensureChild_nextPid_le (s : ShellState) (t : Nat) :
    (s.ensureChild t).2.nextPid ≤ s.nextPid + 1 := by
  unfold ShellState.ensureChild
  cases h : s.liveChild t <;> simp

theorem writeAll_chunks (ws : List String) :
    ∀ sink : LogSink, (sink.writeAll ws).chunks = sink.chunks ++ ws := by
  induction ws with
  | nil => intro sink; simp [LogSink.writeAll]
  | cons w ws ih =>
      intro sink
      have : sink.writeAll (w :: ws) = (sink.write w).writeAll ws := rfl
      rw [this, ih]
      simp [LogSink.write]

theorem writeAll_tag (ws : List String) :
    ∀ sink : LogSink, (sink.writeAll ws).tag = sink.tag := by
  induction ws with
  | nil => intro sink; rfl
  | cons w ws ih =>
      intro sink
      have : sink.writeAll (w :: ws) = (sink.write w).writeAll ws := rfl
      rw [this, ih]
      rfl

theorem mem_ensureDir_self (d : FsPath) (fs : List FsPath) :
    d ∈ ensureDir d fs := by
  unfold ensureDir
  split
  · assumption
  · exact List.mem_cons_self d fs

theorem mem_ensureDir_of_mem {x : FsPath} {fs : List FsPath} (d : FsPath)
    (h : x ∈ fs) : x ∈ ensureDir d fs := by
  unfold ensureDir
  split
  · exact h
  · exact List.mem_cons_of_mem d h

theorem ensureDir_of_mem {d : FsPath} {fs : List FsPath} (h : d ∈ fs) :
    ensureDir d fs = fs := by
  unfold ensureDir
  exact if_pos h

theorem mem_makedirsList_of_mem (ds : List FsPath) :
    ∀ {fs : List FsPath} {x : FsPath}, x ∈ fs → x ∈ makedirsList ds fs := by
  induction ds with
  | nil => intro fs x h; exact h
  | cons d ds ih =>
      intro fs x h
      exact ih (mem_ensureDir_of_mem d h)

theorem mem_makedirsList_self (ds : List FsPath) :
    ∀ (fs : List FsPath), ∀ d ∈ ds, d ∈ makedirsList ds fs := by
  induction ds with
  | nil => intro fs d h; cases h
  | cons a ds ih =>
      intro fs d h
      rcases List.mem_cons.mp h with rfl | hd
      · exact mem_makedirsList_of_mem ds (mem_ensureDir_self d fs)
      · exact ih (ensureDir a fs) d hd

theorem makedirsList_of_all_mem (ds : List FsPath) :
    ∀ {fs : List FsPath}, (∀ d ∈ ds, d ∈ fs) → makedirsList ds fs = fs := by
  induction ds with
  | nil => intro fs _; rfl
  | cons a ds ih =>
      intro fs h
      have ha : a ∈ fs := h a (List.mem_cons_self a ds)
      have : makedirsList (a :: ds) fs = makedirsList ds (ensureDir a fs) := rfl
      rw [this, ensureDir_of_mem ha]
      exact ih fun d hd => h d (List.mem_cons_of_mem a hd)

theorem runBody_closeCount (ops : List (List String × Except Fault Unit)) :
    ∀ r : DummyInkscapeRunner, (runBody ops r).2.closeCount = r.closeCount := by
  induction ops with
  | nil => intro r; rfl
  | cons op rest ih =>
      intro r
      obtain ⟨cmd, res⟩ := op
      cases res with
      | ok u => exact ih { r with commands := r.commands ++ [cmd] }
      | error e => rfl

theorem runTrue_cons (r : ShellModeInkscape) (t : Nat) (ts : List Nat)
    (s : ShellState) :
    runTrue r (t :: ts) s = runTrue r ts (s.ensureChild t).2 := rfl

theorem runTrue_fresh (r : ShellModeInkscape) :
    ∀ (ts : List Nat) (s : ShellState),
      ts.Nodup →
      (∀ t ∈ ts, lookupThread t s.registry = none) →
      (s.registry.map Prod.snd).Nodup →
      (∀ p ∈ s.registry.map Prod.snd, p < s.nextPid) →
      ((runTrue r ts s).registry.map Prod.snd).Nodup ∧
      (runTrue r ts s).registry.length = s.registry.length + ts.length := by
  intro ts
  induction ts with
  | nil => intro s _ _ hnd _; exact ⟨hnd, rfl⟩
  | cons t ts ih =>
      intro s hnodup hfresh hnd hbound
      have hlook : lookupThread t s.registry = none :=
        hfresh t (List.mem_cons_self t ts)
      have hlive : s.liveChild t = none := by
        unfold ShellState.liveChild
        rw [hlook]
      have hstep : (s.ensureChild t).2 =
          { registry := (t, s.nextPid) :: s.registry
            nextPid := s.nextPid + 1
            dead := s.dead } := by
        unfold ShellState.ensureChild
        rw [hlive]
        simp [removeThread_of_lookup_none t s.registry hlook]
      have htnotmem : t ∉ ts := (List.nodup_cons.mp hnodup).1
      have hmain := ih (s.ensureChild t).2 (List.nodup_cons.mp hnodup).2
        (by
          intro u hu
          rw [hstep]
          have htu : t ≠ u := fun h => htnotmem (h ▸ hu)
          simp only [lookupThread, if_neg htu]
          exact hfresh u (List.mem_cons_of_mem t hu))
        (by
          rw [hstep]
          simp only [List.map_cons, List.nodup_cons]
          refine ⟨fun hmem => ?_, hnd⟩
          exact lt_irrefl s.nextPid (hbound s.nextPid hmem))
        (by
          rw [hstep]
          simp only [List.map_cons, List.mem_cons]
          rintro p (rfl | hp)
          · exact Nat.lt_succ_self _
          · exact Nat.lt_succ_of_lt (hbound p hp))
      rw [runTrue_cons]
      refine ⟨hmain.1, ?_⟩
      rw [hmain.2, hstep]
      simp only [List.length_cons]
      omega

/-- C1: calls from N distinct threads against one InteractiveRunner
instance yield N distinct ChildProcess pids, never fewer — no two
threads ever share one ChildProcess (registry pids stay pairwise
distinct, and there is one registry entry per calling thread). -/
theorem shellMode_thread_safe (r : ShellModeInkscape) (ts : List Nat)
    (h : ts.Nodup) :
    ((runTrue r ts ShellState.init).registry.map Prod.snd).Nodup ∧
    (runTrue r ts ShellState.init).registry.length = ts.length := by
  have hmain := runTrue_fresh r ts ShellState.init h
    (fun t _ => rfl) List.nodup_nil (by intro p hp; cases hp)
  exact ⟨hmain.1, by simpa [ShellState.init] using hmain.2⟩

/-- Witness for C1 at sixteen concrete distinct threads is overkill;
three suffice to exercise the theorem. -/
theorem shellMode_thread_safe_witness :
    ([0, 1, 2] : List Nat).Nodup ∧
    (((runTrue ⟨"inkscape", ["--shell"], 30⟩ [0, 1, 2]
        ShellState.init).registry.map Prod.snd).Nodup ∧
      (runTrue ⟨"inkscape", ["--shell"], 30⟩ [0, 1, 2]
        ShellState.init).registry.length = 3) :=
  ⟨by decide, shellMode_thread_safe _ [0, 1, 2] (by decide)⟩

/-- C2: an InteractiveRunner call that completes normally emits no
record when the command produced no output, and exactly one INFO
record containing the output when it is non-empty. -/
theorem shellMode_call_logging (r : ShellModeInkscape) (t : Nat)
    (argv : List String) (o : String) (s : ShellState) :
    (r.call t argv (.completed o) s).result = .ok () ∧
    (r.call t argv (.completed o) s).logs.length =
      (if o = "" then 0 else 1) ∧
    ∀ rcd ∈ (r.call t argv (.completed o) s).logs,
      rcd.level = .info ∧ strContains rcd.text o := by
  refine ⟨rfl, ?_, ?_⟩
  · by_cases h : o = "" <;>
      simp [ShellModeInkscape.call, h, LogSink.close, logging_output,
        LogSink.write]
  · intro rcd hrcd
    by_cases h : o = ""
    · simp [ShellModeInkscape.call, h] at hrcd
    · simp [ShellModeInkscape.call, h, LogSink.close, logging_output,
        LogSink.write] at hrcd
      subst hrcd
      exact ⟨rfl, List.infix_refl _⟩

/-- C3: a one-shot Runner call whose spawned process exits with
non-zero status raises ProcessFailure carrying the exit status and
emits zero log records: the captured output is not emitted. -/
theorem runInkscape_failure (r : RunInkscape) (argv : List String)
    (b : ProcBehavior) (h : b.status ≠ 0) :
    (r.call argv b).result = .error (.processFailure b.status) ∧
    (r.call argv b).logs = [] := by
  unfold RunInkscape.call
  simp [h]

/-- Witness for C3: `/bin/false` exiting with status 1. -/
theorem runInkscape_failure_witness :
    ((1 : Int) ≠ 0) ∧
    (((RunInkscape.mk "/bin/false").call [] ⟨1, ""⟩).result =
        .error (.processFailure 1) ∧
      ((RunInkscape.mk "/bin/false").call [] ⟨1, ""⟩).logs = []) :=
  ⟨by decide, runInkscape_failure (RunInkscape.mk "/bin/false") [] ⟨1, ""⟩ (by decide)⟩

/-- C4: an InteractiveRunner call in which the timeout elapses raises
TimeoutFault, terminates that thread's ChildProcess (its pid joins the
reaped set), removes its registry entry (`pid` reports unset), emits
nothing, and does not retry within the call (at most the one spawn
that `ensureChild` may have performed ever happens). -/
theorem shellMode_timeout (r : ShellModeInkscape) (t : Nat)
    (argv : List String) (s : ShellState) :
    (r.call t argv .timeout s).result = .error .timeoutFault ∧
    (r.call t argv .timeout s).logs = [] ∧
    (r.call t argv .timeout s).state.pidOf t = none ∧
    (s.ensureChild t).1 ∈ (r.call t argv .timeout s).state.dead ∧
    (r.call t argv .timeout s).state.nextPid ≤ s.nextPid + 1 :=
  ⟨rfl, rfl, lookupThread_removeThread t _, List.mem_cons_self _ _,
    ensureChild_nextPid_le s t⟩

/-- C5: `close()` is idempotent for both Runner strategies, and the
one-shot `close()` is a no-op altogether. -/
theorem runner_close_idempotent (r : RunInkscape) (s : ShellState) :
    r.close = r ∧ s.close.close = s.close :=
  ⟨rfl, rfl⟩

/-- C6: after InteractiveRunner `close()` returns, `pid` reports unset
for every thread, and every pid that was registered has been
terminated and reaped (it is in the dead set, so the process id is
invalid from then on). -/
theorem shellMode_close_clears (s : ShellState) (t : Nat) :
    s.close.pidOf t = none ∧
    s.registry.map Prod.snd ⊆ s.close.dead :=
  ⟨rfl, List.subset_append_left _ _⟩

/-- C7: every chunk written to an OutputLogSink scope before exit
appears in exactly one emitted record (the records' texts are exactly
the written chunks, in order, all tagged with the bound name at INFO);
in particular writing "bar" under tag "foo" and closing the scope
yields exactly one record whose rendered text contains both "foo" and
"bar". -/
theorem logging_output_spec :
    (∀ (tag : String) (ws : List String),
      ((logging_output tag).writeAll ws).close.map LogRecord.text = ws ∧
      ∀ rcd ∈ ((logging_output tag).writeAll ws).close,
        rcd.tag = tag ∧ rcd.level = .info) ∧
    (((logging_output "foo").writeAll ["bar"]).close.length = 1 ∧
      ∀ rcd ∈ ((logging_output "foo").writeAll ["bar"]).close,
        strContains rcd.rendered "foo" ∧ strContains rcd.rendered "bar") := by
  constructor
  · intro tag ws
    constructor
    · simp [LogSink.close, writeAll_chunks, logging_output, Function.comp_def]
    · intro rcd hrcd
      simp only [LogSink.close, List.mem_map] at hrcd
      obtain ⟨c, hc, rfl⟩ := hrcd
      refine ⟨?_, rfl⟩
      show ((logging_output tag).writeAll ws).tag = tag
      rw [writeAll_tag]
      rfl
  · constructor
    · rfl
    · decide

/-- C8: `export_pdf(document, output_path)` propagates the bound
Runner's result unchanged, issues exactly one call on the Runner —
the render command carrying `--export-area-page` and
`--export-pdf=<output_path>` — and creates every missing ancestor of
`output_path`'s parent directory while keeping the existing ones, the
create being idempotent. -/
theorem export_pdf_spec (doc : String) (p : FsPath)
    (res : Except Fault Unit) (st : FacadeState) :
    (export_pdf doc p res st).1 = res ∧
    (export_pdf doc p res st).2.commands =
      st.commands ++
        [[doc, "--export-area-page", "--export-pdf=" ++ renderPath p]] ∧
    (∀ d ∈ ancestors (parentDir p), d ∈ (export_pdf doc p res st).2.fs) ∧
    (∀ x ∈ st.fs, x ∈ (export_pdf doc p res st).2.fs) ∧
    makedirs (parentDir p) (export_pdf doc p res st).2.fs =
      (export_pdf doc p res st).2.fs := by
  refine ⟨rfl, rfl, ?_, ?_, ?_⟩
  · intro d hd
    exact mem_makedirsList_self _ _ d hd
  · intro x hx
    exact mem_makedirsList_of_mem _ hx
  · exact makedirsList_of_all_mem _ fun d hd => mem_makedirsList_self _ _ d hd

/-- C9: in a scope that acquires a Runner through the scoped factory,
`close()` runs exactly once on every exit path — never during the
body, once on scope exit, whether the body's call sequence returns
normally or one of its calls raises. -/
theorem scoped_runner_close_once
    (ops : List (List String × Except Fault Unit))
    (r : DummyInkscapeRunner) :
    (runBody ops r).2.closeCount = r.closeCount ∧
    (scopedRun ops r).2.closeCount = r.closeCount + 1 := by
  refine ⟨runBody_closeCount ops r, ?_⟩
  show (runBody ops r).2.close.closeCount = r.closeCount + 1
  simp [DummyInkscapeRunner.close, runBody_closeCount ops r]

/-- C10: `concat_pdfs` on an empty input list raises ValueError and
writes nothing; on a non-empty list it writes at the output path a PDF
whose page count is the sum of the inputs' page counts (with the first
input's metadata). -/
theorem concat_pdfs_spec :
    (∀ (fn : FsPath) (fs : List (FsPath × Pdf)),
      concat_pdfs_fs [] fn fs = (.error .valueError, fs)) ∧
    (∀ (hd : Pdf) (rest : List Pdf) (fn : FsPath)
        (fs : List (FsPath × Pdf)),
      concat_pdfs_fs (hd :: rest) fn fs =
        (.ok (), (fn, { pages := hd.pages + (rest.map Pdf.pages).sum,
                        title := hd.title }) :: fs)) := by
  constructor
  · intro fn fs
    rfl
  · intro hd rest fn fs
    simp [concat_pdfs_fs, concat_pdfs]
